import Mathlib

/-!
Shallow embedding of the NewsAggregator application (`src/app.py`) and
verification of its specification claims.

Python strings are modelled as Lean `String`; `str.lower` is characterwise
ASCII case folding, `str.strip` drops whitespace at both ends, and the
Python substring test `needle in hay` is containment of the character list
of `needle` inside the character list of `hay`.
-/

namespace NewsAgg

/-- Model of Python `str.lower` (characterwise case folding). -/
def lowerStr (s : String) : String := ⟨s.data.map Char.toLower⟩

/-- Model of Python `str.strip`: drop whitespace at both ends. -/
def trimStr (s : String) : String :=
  ⟨((s.data.dropWhile Char.isWhitespace).reverse.dropWhile Char.isWhitespace).reverse⟩

/-- Model of the Python substring test `needle in hay`. -/
def containsStr (hay needle : String) : Bool := decide (needle.data <:+: hay.data)

/-- The category table of `app.py` (lines 10-24), in declaration order;
Python dicts iterate in insertion order, so a list of pairs is faithful. -/
def CATEGORY_KEYWORDS : List (String × List String) := [
  ("World",       ["world", "global", "ukraine", "india", "china", "europe", "middle east", "africa", "america"]),
  ("Business",    ["business", "market", "stocks", "economy", "inflation", "trade", "bank", "startup"]),
  ("Technology",  ["tech", "technology", "ai", "artificial intelligence", "software", "app", "iphone", "android", "robot", "chip"]),
  ("Sports",      ["sport", "sports", "football", "cricket", "tennis", "match", "tournament", "olympic", "goal", "ipl"]),
  ("Entertainment", ["film", "movie", "bollywood", "hollywood", "tv", "series", "music", "celebrity", "show"]),
  ("Science",     ["science", "space", "nasa", "research", "study", "astronomy"]),
  ("Health",      ["health", "covid", "vaccine", "hospital", "disease", "mental"]),
  ("Environment", ["climate", "environment", "weather", "heat", "flood", "wildfire", "energy"]),
  ("Education",   ["education", "university", "school", "students", "exam"]),
  ("Politics",    ["election", "politics", "government", "parliament", "minister", "policy"]),
  ("Spiritual",   ["spiritual", "meditation", "prayer", "mindfulness", "inner peace", "faith", "religion"]),
  ("Cyber Security", ["cyber", "security", "hacking", "data breach", "malware", "phishing", "ransomware"]),
  ("Animals",     ["animals", "wildlife", "pets", "nature", "zoo", "endangered", "species"])]

/-- `ALL_CATEGORIES` of `app.py` line 26. -/
def ALL_CATEGORIES : List String := "All" :: CATEGORY_KEYWORDS.map Prod.fst

/-- `guess_category` of `app.py` lines 28-33: lower-case the title, walk the
table in order, return the first category one of whose keywords occurs in
the lowered title, else the default label. -/
def guess_category (title : String) : String :=
  let t := lowerStr title
  match CATEGORY_KEYWORDS.find? (fun p => p.2.any (fun k => containsStr t k)) with
  | some p => p.1
  | none => "World"

/-- A table entry matches a title when some of its keywords is a substring
of the lowered title (the loop condition of `guess_category`). -/
def catMatch (s : String) (p : String × List String) : Bool :=
  p.2.any (fun k => containsStr (lowerStr s) k)

/-- The news-item dictionaries built by `get_bbc_news`. -/
structure NewsItem where
  id : Nat
  title : String
  url : String
  content : String
  category : String
deriving DecidableEq

/-- The news-item fields other than the id (used to state order/content
preservation under renumbering). -/
def itemBody (n : NewsItem) : String × String × String × String :=
  (n.title, n.url, n.content, n.category)

/-- One element selected by `soup.select("a[data-testid='internal-link'] h3")`:
its stripped text (`tag.get_text(strip=True)`) and the enclosing anchor's
href (`None` when the anchor or attribute is absent). -/
structure ScrapedElement where
  title : String
  href : Option String
deriving DecidableEq

/-- Outcome of the network fetch and parse of `get_bbc_news`: either some
exception was raised (request error, `raise_for_status`, parse failure), or
the selector produced a list of elements. -/
inductive FetchOutcome where
  | failure : FetchOutcome
  | success : List ScrapedElement → FetchOutcome

/-- Link normalization of `app.py` lines 54-62. -/
def normalizeLink (href : Option String) : String :=
  match href with
  | some h =>
    if h != "" && "/".data.isPrefixOf h.data then "https://www.bbc.com" ++ h
    else if h != "" then h
    else "https://www.bbc.com/news"
  | none => "https://www.bbc.com/news"

/-- The synthesized summary `f"This is a short summary for: {title}."`. -/
def mkSummary (title : String) : String :=
  "This is a short summary for: " ++ title ++ "."

/-- Body of the extraction loop of `app.py` lines 49-70, applied to one
`enumerate(items, start=1)` pair: skip when the stripped title is empty,
otherwise build the item carrying the enumeration index as id. -/
def extractF (p : Nat × ScrapedElement) : Option NewsItem :=
  if p.2.title = "" then none
  else some {
    id := p.1 + 1,
    title := p.2.title,
    url := normalizeLink p.2.href,
    content := mkSummary p.2.title,
    category := guess_category p.2.title }

/-- The whole extraction loop over the selected elements. -/
def extractItems (els : List ScrapedElement) : List NewsItem :=
  els.enum.filterMap extractF

/-- The fallback table of `app.py` lines 77-95: (title, category, url). -/
def fallbackRaw : List (String × String × String) := [
  ("AI is Transforming the World", "Technology", "https://www.bbc.com/news/technology"),
  ("Markets Rally as Inflation Cools", "Business", "https://www.bbc.com/news/business"),
  ("Global Leaders Meet for Summit", "World", "https://www.bbc.com/news/world"),
  ("Major Finals Set to Thrill Fans", "Sports", "https://www.bbc.com/sport"),
  ("discovering the beatiful adventures", "travel", "https://www.bbc.com/travel"),
  ("Exploring the Depths of the Ocean", "Environment", "https://www.bbc.com/news/science-environment"),
  ("Green Energy Adoption Surges", "Environment", "https://www.bbc.com/future/columns/climate-change"),
  ("Universities Roll Out New Programs", "Education", "https://www.bbc.com/news/education"),
  ("Elections Around the Corner", "Politics", "https://www.bbc.com/news/politics"),
  ("New Species Discovered in Amazon", "Science", "https://www.bbc.com/news/science-environment"),
  ("Mental Health Awareness Rises", "Health", "https://www.bbc.com/news/health"),
  ("Blockbuster Movie Breaks Records", "Entertainment", "https://www.bbc.com/news/entertainment_and_arts"),
  ("Cyber Security Threats on the Rise", "Cyber Security", "https://www.bbc.com/news/technology"),
  ("The Rise of Electric Vehicles", "Technology", "https://www.bbc.com/news/technology"),
  ("AI-Powered Healthcare Innovations", "Health", "https://www.bbc.com/news/health"),
  ("Amazing Wildlife Discoveries", "Animals", "https://www.bbc.com/news/science-environment")]

/-- The fallback loop of `app.py` lines 97-104: items keep their literal
pre-assigned categories. -/
def fallbackNews : List NewsItem :=
  fallbackRaw.enum.map (fun p => {
    id := p.1 + 1,
    title := p.2.1,
    url := p.2.2.2,
    content := mkSummary p.2.1,
    category := p.2.2.1 })

/-- The first entry of the fallback list, as a news item. -/
def fallbackFirstItem : NewsItem := {
  id := 1,
  title := "AI is Transforming the World",
  url := "https://www.bbc.com/news/technology",
  content := mkSummary "AI is Transforming the World",
  category := "Technology" }

/-- `get_bbc_news` of `app.py` lines 36-106: on an exception nothing was
appended; on success the selected elements are truncated to `max_items` and
run through the extraction loop; if the resulting list is empty the
fallback list is substituted. -/
def get_bbc_news (o : FetchOutcome) (max_items : Nat := 20) : List NewsItem :=
  let news_list :=
    match o with
    | .failure => []
    | .success els => extractItems (els.take max_items)
  if news_list.isEmpty then fallbackNews else news_list

/-- The filtering stage of the `index` route (`app.py` lines 111-124):
category filter when the category argument is truthy and not "All", then
search filter when the stripped lowered query is nonempty. The category
query parameter defaults to "All" when absent. -/
def filteredNews (rawQ : String) (categoryArg : Option String)
    (news : List NewsItem) : List NewsItem :=
  let query := lowerStr (trimStr rawQ)
  let category := categoryArg.getD "All"
  let l1 := if category != "" && category != "All"
    then news.filter (fun n => n.category == category) else news
  if query != ""
    then l1.filter (fun n =>
      containsStr (lowerStr n.title) query || containsStr (lowerStr n.content) query)
    else l1

/-- The id-reassignment loop of `app.py` lines 127-128. -/
def renumber (l : List NewsItem) : List NewsItem :=
  l.enum.map (fun p => { p.2 with id := p.1 + 1 })

/-- The `index` route body after the fetch (`app.py` lines 109-128):
filters, then renumbering. -/
def listFilters (rawQ : String) (categoryArg : Option String)
    (news : List NewsItem) : List NewsItem :=
  renumber (filteredNews rawQ categoryArg news)

/-- The full `index` route: fetch with `max_items=30`, filter, renumber. -/
def indexRoute (rawQ : String) (categoryArg : Option String)
    (o : FetchOutcome) : List NewsItem :=
  listFilters rawQ categoryArg (get_bbc_news o 30)

/-- The `detail` route (`app.py` lines 140-149): refetch with
`max_items=30`, return the item at the 1-based position when in range,
else the first item. List indexing that would raise in Python is modelled
by `Option`-valued indexing, so `none` models an uncaught `IndexError`. -/
def detailRoute (o : FetchOutcome) (news_id : Nat) : Option NewsItem :=
  let news_list := get_bbc_news o 30
  if 1 ≤ news_id ∧ news_id ≤ news_list.length
    then news_list[news_id - 1]?
    else news_list[0]?

/-- Configuration of the `/ask` route: whether the generative-model client
was initialized at process start (`genai_available and model is not None`),
and the model call itself, returning its text or raising (`Except.error`). -/
structure AskCfg where
  modelConfigured : Bool
  generate : String → Except String String

/-- The `/ask` route body (`app.py` lines 152-173): the request's question
field (`none` when the JSON body is not a dict or has no question). Returns
(status, answer). -/
def askRoute (cfg : AskCfg) (question : Option String) : Nat × String :=
  match question with
  | none => (400, "⚠️ No question provided.")
  | some q =>
    if q = "" then (400, "⚠️ No question provided.")
    else if cfg.modelConfigured then
      match cfg.generate q with
      | .ok t => (200, t)
      | .error e => (200, "⚠️ Gemini error: " ++ e)
    else (200, "(local) You asked: " ++ q)

lemma guess_category_eq_find (s : String) :
    guess_category s =
      match CATEGORY_KEYWORDS.find? (catMatch s) with
      | some p => p.1
      | none => "World" := rfl

/-- `containsStr` really is the substring relation. -/
lemma containsStr_iff (hay needle : String) :
    containsStr hay needle = true ↔ ∃ l r, hay.data = l ++ needle.data ++ r := by
  constructor
  · intro h
    rcases (decide_eq_true_eq.mp h) with ⟨l, r, hlr⟩
    exact ⟨l, r, hlr.symm⟩
  · rintro ⟨l, r, hlr⟩
    exact decide_eq_true_eq.mpr ⟨l, r, hlr.symm⟩

/-- `List.find?` returns either nothing, with no element satisfying the
predicate, or the first satisfying element. -/
lemma find?_none_or_first {α : Type} (p : α → Bool) (l : List α) :
    (l.find? p = none ∧ ∀ a ∈ l, p a = false)
    ∨ ∃ i : Fin l.length, l.find? p = some (l.get i) ∧ p (l.get i) = true
        ∧ ∀ j : Fin l.length, (j : Nat) < (i : Nat) → p (l.get j) = false := by
  induction l with
  | nil => exact Or.inl ⟨rfl, by simp⟩
  | cons a t ih =>
    cases hp : p a with
    | true =>
      refine Or.inr ⟨⟨0, by simp⟩, ?_, ?_, ?_⟩
      · simp [List.find?, hp]
      · simpa using hp
      · intro j hj
        exact absurd hj (Nat.not_lt_zero _)
    | false =>
      rcases ih with ⟨hn, hall⟩ | ⟨i, hf, hpi, hless⟩
      · refine Or.inl ⟨by simp [List.find?, hp, hn], ?_⟩
        intro x hx
        rcases List.mem_cons.mp hx with rfl | hx
        · exact hp
        · exact hall x hx
      · refine Or.inr ⟨⟨i.val + 1, Nat.succ_lt_succ i.isLt⟩, ?_, ?_, ?_⟩
        · simpa [List.find?, hp] using hf
        · simpa using hpi
        · rintro ⟨jv, hjv⟩ hj
          cases jv with
          | zero => exact hp
          | succ k =>
            have hk : k < i.val := Nat.lt_of_succ_lt_succ hj
            simpa using hless ⟨k, Nat.lt_of_succ_lt_succ hjv⟩ hk

/-- C1: `guess_category` is total: for every input string it either returns
the default label "World" with no table entry matching the lower-cased
input, or it returns the label of the first table entry (in declaration
order) one of whose keywords is a substring of the lower-cased input; in
particular when entries at two positions both match, the earlier one wins. -/
theorem C1_classifier_first_match (s : String) :
    (guess_category s = "World" ∧ ∀ p ∈ CATEGORY_KEYWORDS, catMatch s p = false)
    ∨ ∃ i : Fin CATEGORY_KEYWORDS.length,
        guess_category s = (CATEGORY_KEYWORDS.get i).1
        ∧ catMatch s (CATEGORY_KEYWORDS.get i) = true
        ∧ ∀ j : Fin CATEGORY_KEYWORDS.length, (j : Nat) < (i : Nat) →
            catMatch s (CATEGORY_KEYWORDS.get j) = false := by
  rcases find?_none_or_first (catMatch s) CATEGORY_KEYWORDS with ⟨hn, hall⟩ | ⟨i, hf, hpi, hless⟩
  · exact Or.inl ⟨by rw [guess_category_eq_find, hn], hall⟩
  · exact Or.inr ⟨i, by rw [guess_category_eq_find, hf], hpi, hless⟩

lemma string_data_eq_nil {s : String} (h : s.data = []) : s = "" := by
  cases s with
  | mk d =>
    cases h
    rfl

lemma lowerStr_ne_empty {s : String} (h : s ≠ "") : lowerStr s ≠ "" := by
  intro hl
  apply h
  have hd : s.data.map Char.toLower = ([] : List Char) := congrArg String.data hl
  exact string_data_eq_nil (List.map_eq_nil_iff.mp hd)

lemma renumber_map_id_aux (l : List NewsItem) :
    ∀ k : Nat,
      (((List.enumFrom k l).map (fun p => ({ p.2 with id := p.1 + 1 } : NewsItem))).map
        (fun n => n.id)) = List.range' (k + 1) l.length := by
  induction l with
  | nil => intro k; rfl
  | cons a t ih =>
    intro k
    simp only [List.enumFrom, List.map_cons, List.length_cons, List.range']
    exact congrArg (List.cons (k + 1)) (ih (k + 1))

/-- Renumbering assigns the ids 1..k in order. -/
lemma renumber_map_id (l : List NewsItem) :
    (renumber l).map (fun n => n.id) = List.range' 1 l.length := by
  simpa [renumber, List.enum] using renumber_map_id_aux l 0

lemma renumber_map_body_aux (l : List NewsItem) :
    ∀ k : Nat,
      ((List.enumFrom k l).map (fun p => ({ p.2 with id := p.1 + 1 } : NewsItem))).map itemBody
        = l.map itemBody := by
  induction l with
  | nil => intro k; rfl
  | cons a t ih =>
    intro k
    simp only [List.enumFrom, List.map_cons]
    exact congrArg (List.cons (itemBody a)) (ih (k + 1))

/-- Renumbering changes no field other than the id. -/
lemma renumber_map_body (l : List NewsItem) :
    (renumber l).map itemBody = l.map itemBody := by
  simpa [renumber, List.enum] using renumber_map_body_aux l 0

lemma renumber_length (l : List NewsItem) : (renumber l).length = l.length := by
  simp [renumber]

lemma filter_filter_bool {α : Type} (p q : α → Bool) (l : List α) :
    (l.filter p).filter q = l.filter (fun a => p a && q a) := by
  induction l with
  | nil => rfl
  | cons a t ih =>
    cases hp : p a <;> cases hq : q a <;>
      simp [List.filter_cons, hp, hq, ih]

/-- The filtering stage only removes items, keeping relative order. -/
lemma filteredNews_sublist (rawQ : String) (c : Option String) (l : List NewsItem) :
    List.Sublist (filteredNews rawQ c l) l := by
  dsimp only [filteredNews]
  split
  · split
    · exact (List.filter_sublist _).trans (List.filter_sublist _)
    · exact List.filter_sublist _
  · split
    · exact List.filter_sublist _
    · exact List.Sublist.refl l

/-- C2: the listing operation renumbers the filtered items with ids 1..k in
the order they appear in the input list (the filtered list is a sublist of
the input, so relative order is preserved and prior ids are discarded), and
with an absent or "All" category argument and an empty trimmed search text
the whole input list comes back, with ids 1..n and unchanged order. -/
theorem C2_listing_renumbered (rawQ : String) (categoryArg : Option String)
    (l : List NewsItem) :
    ((listFilters rawQ categoryArg l).map (fun n => n.id)
      = List.range' 1 (listFilters rawQ categoryArg l).length)
    ∧ List.Sublist ((listFilters rawQ categoryArg l).map itemBody) (l.map itemBody)
    ∧ ((categoryArg = none ∨ categoryArg = some "All") → trimStr rawQ = "" →
        (listFilters rawQ categoryArg l).map itemBody = l.map itemBody
        ∧ (listFilters rawQ categoryArg l).length = l.length) := by
  refine ⟨?_, ?_, ?_⟩
  · rw [listFilters, renumber_map_id, renumber_length]
  · rw [listFilters, renumber_map_body]
    exact (filteredNews_sublist rawQ categoryArg l).map itemBody
  · intro hc hq
    have hq2 : lowerStr (trimStr rawQ) = "" := by rw [hq]; rfl
    have hcat : categoryArg.getD "All" = "All" := by
      rcases hc with rfl | rfl <;> rfl
    have hfull : filteredNews rawQ categoryArg l = l := by
      dsimp only [filteredNews]
      rw [hcat, hq2]
      simp
    rw [listFilters, hfull, renumber_map_body, renumber_length]
    exact ⟨rfl, rfl⟩

theorem C2_witness :
    (listFilters "" none fallbackNews).map itemBody = fallbackNews.map itemBody
    ∧ (listFilters "" none fallbackNews).length = fallbackNews.length :=
  (C2_listing_renumbered "" none fallbackNews).2.2 (Or.inl rfl) rfl

/-- C5: with a nonempty trimmed search text, the listing's filter stage
retains exactly the items whose lowered title or lowered content contains
the lowered trimmed search text as a substring (so an upper-case query
matches lower-case titles); when a real category filter is also present an
item is retained iff it satisfies both filters. -/
theorem C5_search_filter (rawQ cat : String) (l : List NewsItem)
    (hq : trimStr rawQ ≠ "") :
    (filteredNews rawQ (some "All") l
      = l.filter (fun n =>
          containsStr (lowerStr n.title) (lowerStr (trimStr rawQ))
          || containsStr (lowerStr n.content) (lowerStr (trimStr rawQ))))
    ∧ (cat ≠ "" → cat ≠ "All" →
        filteredNews rawQ (some cat) l
          = l.filter (fun n => (n.category == cat)
              && (containsStr (lowerStr n.title) (lowerStr (trimStr rawQ))
                  || containsStr (lowerStr n.content) (lowerStr (trimStr rawQ))))) := by
  have hq2 : (lowerStr (trimStr rawQ) != "") = true := by
    simpa [bne_iff_ne] using lowerStr_ne_empty hq
  constructor
  · dsimp only [filteredNews]
    simp only [Option.getD_some, hq2]
    simp
  · intro h1 h2
    have hcat : (cat != "" && cat != "All") = true := by
      simp [bne_iff_ne, h1, h2]
    dsimp only [filteredNews]
    simp only [Option.getD_some, hcat, hq2, if_true]
    exact filter_filter_bool _ _ l

theorem C5_witness :
    (filteredNews "TECH" (some "All") fallbackNews
      = fallbackNews.filter (fun n =>
          containsStr (lowerStr n.title) (lowerStr (trimStr "TECH"))
          || containsStr (lowerStr n.content) (lowerStr (trimStr "TECH"))))
    ∧ (filteredNews "TECH" (some "Technology") fallbackNews
      = fallbackNews.filter (fun n => (n.category == "Technology")
          && (containsStr (lowerStr n.title) (lowerStr (trimStr "TECH"))
              || containsStr (lowerStr n.content) (lowerStr (trimStr "TECH"))))) :=
  ⟨(C5_search_filter "TECH" "Technology" fallbackNews (by decide)).1,
   (C5_search_filter "TECH" "Technology" fallbackNews (by decide)).2
     (by decide) (by decide)⟩


lemma extractF_of_skip {p : Nat × ScrapedElement} (h : p.2.title = "") :
    extractF p = none := by
  simp [extractF, h]

lemma extractF_of_keep {p : Nat × ScrapedElement} (h : p.2.title ≠ "") :
    extractF p = some {
      id := p.1 + 1,
      title := p.2.title,
      url := normalizeLink p.2.href,
      content := mkSummary p.2.title,
      category := guess_category p.2.title } := by
  simp [extractF, h]

lemma extractF_id {p : Nat × ScrapedElement} {n : NewsItem}
    (h : extractF p = some n) : n.id = p.1 + 1 := by
  by_cases ht : p.2.title = ""
  · rw [extractF_of_skip ht] at h
    cases h
  · rw [extractF_of_keep ht] at h
    cases h
    rfl

lemma extractF_category {p : Nat × ScrapedElement} {n : NewsItem}
    (h : extractF p = some n) : n.category = guess_category p.2.title := by
  by_cases ht : p.2.title = ""
  · rw [extractF_of_skip ht] at h
    cases h
  · rw [extractF_of_keep ht] at h
    cases h
    rfl

/-- Ids extracted from elements enumerated from position k are above k and
strictly increasing. -/
lemma extract_ids_aux (els : List ScrapedElement) :
    ∀ k : Nat,
      (∀ n ∈ (List.enumFrom k els).filterMap extractF, k < n.id)
      ∧ ((List.enumFrom k els).filterMap extractF).Pairwise (fun a b => a.id < b.id) := by
  induction els with
  | nil => intro k; simp
  | cons e t ih =>
    intro k
    have iht := ih (k + 1)
    cases he : extractF (k, e) with
    | none =>
      refine ⟨?_, ?_⟩
      · intro n hn
        simp only [List.enumFrom, List.filterMap_cons, he] at hn
        exact Nat.lt_of_succ_lt (iht.1 n hn)
      · simp only [List.enumFrom, List.filterMap_cons, he]
        exact iht.2
    | some n0 =>
      have hid : n0.id = k + 1 := extractF_id he
      refine ⟨?_, ?_⟩
      · intro n hn
        simp only [List.enumFrom, List.filterMap_cons, he, List.mem_cons] at hn
        rcases hn with rfl | hn
        · omega
        · exact Nat.lt_of_succ_lt (iht.1 n hn)
      · simp only [List.enumFrom, List.filterMap_cons, he]
        exact List.Pairwise.cons
          (fun b hb => by rw [hid]; exact iht.1 b hb) iht.2

/-- When no element is skipped, the extracted ids are exactly the
enumeration positions. -/
lemma extract_ids_full (els : List ScrapedElement) :
    ∀ k : Nat, (∀ e ∈ els, e.title ≠ "") →
      ((List.enumFrom k els).filterMap extractF).map (fun n => n.id)
        = List.range' (k + 1) els.length := by
  induction els with
  | nil => intro k _; rfl
  | cons e t ih =>
    intro k h
    have he : extractF (k, e) =
        some {
          id := k + 1,
          title := e.title,
          url := normalizeLink e.href,
          content := mkSummary e.title,
          category := guess_category e.title } :=
      extractF_of_keep (h e (List.mem_cons_self e t))
    simp only [List.enumFrom, List.filterMap_cons, he, List.map_cons,
      List.length_cons, List.range']
    exact congrArg (List.cons (k + 1))
      (ih (k + 1) (fun x hx => h x (List.mem_cons_of_mem e hx)))

/-- When every element has an empty stripped title, extraction is empty. -/
lemma extract_nil_of_all_empty (els : List ScrapedElement)
    (h : ∀ e ∈ els, e.title = "") : extractItems els = [] := by
  have aux : ∀ (l : List ScrapedElement), (∀ e ∈ l, e.title = "") →
      ∀ k : Nat, (List.enumFrom k l).filterMap extractF = [] := by
    intro l
    induction l with
    | nil => intro _ k; rfl
    | cons e t ih =>
      intro hl k
      have he : extractF (k, e) = none :=
        extractF_of_skip (hl e (List.mem_cons_self e t))
      simp only [List.enumFrom, List.filterMap_cons, he]
      exact ih (fun x hx => hl x (List.mem_cons_of_mem e hx)) (k + 1)
  unfold extractItems
  rw [List.enum]
  exact aux els h 0

/-- Every category label produced by the classifier is a key of the table
(the default "World" is itself the first key). -/
lemma guess_category_mem (s : String) :
    guess_category s ∈ CATEGORY_KEYWORDS.map Prod.fst := by
  rw [guess_category_eq_find]
  cases hf : CATEGORY_KEYWORDS.find? (catMatch s) with
  | none => decide
  | some p => exact List.mem_map_of_mem Prod.fst (List.mem_of_find?_eq_some hf)

/-- Every item built by the live extraction loop carries a classifier
label. -/
lemma extractItems_category (els : List ScrapedElement) (n : NewsItem)
    (hn : n ∈ extractItems els) :
    n.category ∈ CATEGORY_KEYWORDS.map Prod.fst := by
  rcases List.mem_filterMap.mp hn with ⟨p, _, hp⟩
  rw [extractF_category hp]
  exact guess_category_mem p.2.title

/-- C3 counterexample: the claim says every item of both fetch paths
carries one of the 13 table labels or the default "World"; but the fifth
item of the fallback path carries the label "travel", which is neither. -/
theorem C3_counterexample :
    (get_bbc_news .failure 30)[4]?.map (fun n => n.category) = some "travel"
    ∧ "travel" ∉ CATEGORY_KEYWORDS.map Prod.fst
    ∧ "travel" ≠ "World" :=
  ⟨by decide, by decide, by decide⟩

/-- C3 amended: every item of the live-scrape path carries a table label
("World" included); items of the fallback path carry a table label except
for the literal label "travel" of the fifth fallback entry. -/
theorem C3_categories_closed (o : FetchOutcome) (m : Nat) :
    (∀ n ∈ get_bbc_news o m,
      n.category ∈ CATEGORY_KEYWORDS.map Prod.fst ∨ n.category = "travel")
    ∧ (∀ els : List ScrapedElement, ∀ n ∈ extractItems els,
      n.category ∈ CATEGORY_KEYWORDS.map Prod.fst) := by
  have hfb : ∀ n ∈ fallbackNews,
      n.category ∈ CATEGORY_KEYWORDS.map Prod.fst ∨ n.category = "travel" := by
    decide
  refine ⟨?_, fun els n hn => extractItems_category els n hn⟩
  intro n hn
  dsimp only [get_bbc_news] at hn
  cases o with
  | failure => exact hfb n hn
  | success els =>
    by_cases he : (extractItems (els.take m)).isEmpty
    · rw [if_pos he] at hn
      exact hfb n hn
    · rw [if_neg he] at hn
      exact Or.inl (extractItems_category _ n hn)

theorem C3_witness :
    fallbackFirstItem.category ∈ CATEGORY_KEYWORDS.map Prod.fst
    ∨ fallbackFirstItem.category = "travel" :=
  (C3_categories_closed .failure 30).1 fallbackFirstItem (by decide)

/-- C4: whenever the fetch raised, or every selected element was skipped
for an empty stripped title, `get_bbc_news` returns exactly the 16-item
fallback list; its first item is titled "AI is Transforming the World"
with category "Technology", the categories are the literal pre-assigned
ones, and at least one of them differs from what the classifier would
assign (so they are not reclassified). -/
theorem C4_fallback_path (m : Nat) (els : List ScrapedElement)
    (h : ∀ e ∈ els.take m, e.title = "") :
    get_bbc_news .failure m = fallbackNews
    ∧ get_bbc_news (.success els) m = fallbackNews
    ∧ fallbackNews.length = 16
    ∧ fallbackNews.head? = some fallbackFirstItem
    ∧ fallbackNews.map (fun n => n.category)
        = ["Technology", "Business", "World", "Sports", "travel",
           "Environment", "Environment", "Education", "Politics", "Science",
           "Health", "Entertainment", "Cyber Security", "Technology",
           "Health", "Animals"]
    ∧ ∃ n ∈ fallbackNews, n.category ≠ guess_category n.title := by
  refine ⟨rfl, ?_, by decide, by decide, by decide, ?_⟩
  · have he : extractItems (els.take m) = [] := extract_nil_of_all_empty _ h
    dsimp only [get_bbc_news]
    rw [he]
    rfl
  · refine ⟨fallbackNews.head (by decide), by decide, by decide⟩

theorem C4_witness :
    get_bbc_news .failure 30 = fallbackNews
    ∧ get_bbc_news (.success [⟨"", some "/x"⟩]) 30 = fallbackNews :=
  ⟨(C4_fallback_path 30 [⟨"", some "/x"⟩] (by decide)).1,
   (C4_fallback_path 30 [⟨"", some "/x"⟩] (by decide)).2.1⟩

/-- C7 counterexample: the claim says the live path's ids are contiguous
1..m even when elements with empty stripped titles are skipped; but with a
skipped first element the single surviving item carries id 2, not 1. -/
theorem C7_counterexample :
    ((get_bbc_news (.success [⟨"", none⟩, ⟨"Stray Cats Rescued", none⟩]) 30).map
      (fun n => n.id) = [2])
    ∧ (get_bbc_news (.success [⟨"", none⟩, ⟨"Stray Cats Rescued", none⟩]) 30).length = 1
    ∧ [2] ≠ List.range' 1 1 :=
  ⟨by decide, by decide, by decide⟩

/-- C7 amended: the ids of the live path are the 1-based positions of the
surviving elements among the selected elements: they are strictly
increasing, hence unique; they are contiguous (1..m) exactly when no
selected element is skipped for an empty stripped title. -/
theorem C7_extraction_ids (els : List ScrapedElement) (m : Nat) :
    ((extractItems (els.take m)).map (fun n => n.id)).Pairwise (· < ·)
    ∧ ((extractItems (els.take m)).map (fun n => n.id)).Nodup
    ∧ ((∀ e ∈ els.take m, e.title ≠ "") →
        (extractItems (els.take m)).map (fun n => n.id)
          = List.range' 1 (extractItems (els.take m)).length) := by
  have hpw : ((extractItems (els.take m)).map (fun n => n.id)).Pairwise (· < ·) := by
    unfold extractItems
    rw [List.enum]
    exact List.pairwise_map.mpr ((extract_ids_aux (els.take m) 0).2)
  refine ⟨hpw, List.Pairwise.imp (fun h => Nat.ne_of_lt h) hpw, ?_⟩
  intro h
  have hfull := extract_ids_full (els.take m) 0 h
  have hlen : (extractItems (els.take m)).length = (els.take m).length := by
    have := congrArg List.length hfull
    simpa [extractItems, List.enum] using this
  rw [hlen]
  unfold extractItems
  rw [List.enum]
  simpa using hfull

theorem C7_witness :
    (extractItems (([⟨"Alpha News", none⟩, ⟨"Beta News", none⟩] :
        List ScrapedElement).take 30)).map (fun n => n.id)
      = List.range' 1 (extractItems (([⟨"Alpha News", none⟩, ⟨"Beta News", none⟩] :
        List ScrapedElement).take 30)).length :=
  (C7_extraction_ids [⟨"Alpha News", none⟩, ⟨"Beta News", none⟩] 30).2.2 (by decide)


/-- The fetch operation never returns an empty list: an empty scrape is
replaced by the (nonempty) fallback list. -/
lemma get_bbc_news_ne_nil (o : FetchOutcome) (m : Nat) :
    get_bbc_news o m ≠ [] := by
  dsimp only [get_bbc_news]
  split
  · decide
  · rename_i hne
    intro hnil
    rw [hnil] at hne
    simp at hne

lemma get_bbc_news_length_pos (o : FetchOutcome) (m : Nat) :
    0 < (get_bbc_news o m).length :=
  List.length_pos.mpr (get_bbc_news_ne_nil o m)

lemma detailRoute_eq_ite (o : FetchOutcome) (i : Nat) :
    detailRoute o i =
      if 1 ≤ i ∧ i ≤ (get_bbc_news o 30).length
        then (get_bbc_news o 30)[i - 1]?
        else (get_bbc_news o 30)[0]? := rfl

/-- The detail lookup always yields an item. -/
lemma detailRoute_isSome (o : FetchOutcome) (i : Nat) :
    (detailRoute o i).isSome = true := by
  rw [detailRoute_eq_ite]
  by_cases h : 1 ≤ i ∧ i ≤ (get_bbc_news o 30).length
  · rw [if_pos h]
    have hi : i - 1 < (get_bbc_news o 30).length := by omega
    rw [List.getElem?_eq_getElem hi]
    rfl
  · rw [if_neg h]
    rw [List.getElem?_eq_getElem (get_bbc_news_length_pos o 30)]
    rfl

/-- C6: the detail lookup returns the item at the given 1-based position
when the index is within bounds of the freshly fetched list, and the first
item of the list otherwise (including index 0 and too-large indices); the
lookup always yields an item, never a not-found error. -/
theorem C6_detail_lookup (o : FetchOutcome) (i : Nat) :
    (detailRoute o i).isSome = true
    ∧ (1 ≤ i → i ≤ (get_bbc_news o 30).length →
        detailRoute o i = (get_bbc_news o 30)[i - 1]?)
    ∧ (¬ (1 ≤ i ∧ i ≤ (get_bbc_news o 30).length) →
        detailRoute o i = (get_bbc_news o 30)[0]?)
    ∧ (get_bbc_news o 30)[0]? = (get_bbc_news o 30).head? := by
  refine ⟨detailRoute_isSome o i, ?_, ?_, ?_⟩
  · intro h1 h2
    rw [detailRoute_eq_ite, if_pos ⟨h1, h2⟩]
  · intro h
    rw [detailRoute_eq_ite, if_neg h]
  · cases hl : get_bbc_news o 30 with
    | nil => exact absurd hl (get_bbc_news_ne_nil o 30)
    | cons a t => simp

theorem C6_witness :
    detailRoute .failure 2 = (get_bbc_news .failure 30)[2 - 1]?
    ∧ detailRoute .failure 99 = (get_bbc_news .failure 30)[0]?
    ∧ detailRoute .failure 0 = (get_bbc_news .failure 30)[0]? :=
  ⟨(C6_detail_lookup .failure 2).2.1 (by decide) (by decide),
   (C6_detail_lookup .failure 99).2.2.1 (by decide),
   (C6_detail_lookup .failure 0).2.2.1 (by decide)⟩

/-- C8: an `/ask` request whose body has no question, or an empty one,
gets status 400 with the fixed warning answer, whatever the model
configuration; since the result does not depend on the configured flag or
on the generation function, neither the model path nor the echo path is
invoked. -/
theorem C8_ask_missing_question (cfg : AskCfg) :
    askRoute cfg none = (400, "⚠️ No question provided.")
    ∧ askRoute cfg (some "") = (400, "⚠️ No question provided.") := by
  constructor
  · rfl
  · simp [askRoute]

/-- C9: with a nonempty question and no configured model integration, the
`/ask` route returns status 200 and the local echo answer built from the
original question verbatim. -/
theorem C9_ask_local_echo (gen : String → Except String String) (q : String)
    (hq : q ≠ "") :
    askRoute { modelConfigured := false, generate := gen } (some q)
      = (200, "(local) You asked: " ++ q) := by
  simp [askRoute, hq]

theorem C9_witness :
    askRoute { modelConfigured := false, generate := fun s => .ok s }
        (some "What is new today")
      = (200, "(local) You asked: What is new today") :=
  C9_ask_local_echo (fun s => .ok s) "What is new today" (by decide)

/-- C10: the fetch operation always returns a nonempty list (the fallback
is substituted for an empty scrape), so the detail lookup's access to the
first element is always in bounds and the lookup always yields an item. -/
theorem C10_fetch_nonempty (o : FetchOutcome) (m i : Nat) :
    get_bbc_news o m ≠ []
    ∧ 0 < (get_bbc_news o 30).length
    ∧ ((get_bbc_news o 30)[0]?).isSome = true
    ∧ (detailRoute o i).isSome = true := by
  refine ⟨get_bbc_news_ne_nil o m, get_bbc_news_length_pos o 30, ?_,
    detailRoute_isSome o i⟩
  rw [List.getElem?_eq_getElem (get_bbc_news_length_pos o 30)]
  rfl

end NewsAgg
